import Mathlib

/-!
Shallow embedding of the core of `mlflow-export-import`:
the experiment export orchestrator (`experiment/export_experiment.py`),
the model-version copy engine (`copy/copy_model_version.py`),
the HTTP transport client (`client/http_client.py`) and the
artifact-path resolver exercised by `tests/test_models.py`.

Python dicts over string keys are modelled as insertion-ordered
association lists (`TagMap`); Python `None`-able values as `Option`;
Python truthiness of `None`-or-int and `None`-or-string values is made
explicit.  Epoch-millisecond timestamps are modelled as `Nat` (the
tracking server issues nonnegative millisecond timestamps).
-/

namespace MlflowExportImport

/-- A Python `dict[str, str]` as an insertion-ordered association list. -/
abbrev TagMap := List (String × String)

/-- `d.get(k)` / `k in d`: first (and only, for maps built by `dictInsert`)
binding of `k`. -/
def tagLookup (m : TagMap) (k : String) : Option String :=
  (m.find? (fun p => p.1 == k)).map (fun p => p.2)

/-- `d[k] = v` on a Python dict: overwrite in place if the key is present,
otherwise append at the end (insertion order is preserved). -/
def dictInsert (m : TagMap) (k v : String) : TagMap :=
  if m.any (fun p => p.1 == k) then
    m.map (fun p => if p.1 == k then (k, v) else p)
  else
    m ++ [(k, v)]

/-- A Python dict comprehension `{k: v for (k, v) in items}`:
later bindings win. -/
def dictOfItems (items : List (String × String)) : TagMap :=
  items.foldl (fun m p => dictInsert m p.1 p.2) []

/-- `k.replace(".", "_")` — for a one-character pattern and a one-character
replacement, Python's `str.replace` is a character-wise map. -/
def sanitizeKey (s : String) : String :=
  ⟨s.data.map (fun c => if c == '.' then '_' else c)⟩

/-- `model_utils.is_unity_catalog_model` — `"." in model_name`
(a catalog-style name is dotted / multi-segment; the same test appears
verbatim in `databricks_notebooks/copy/Common.py`). -/
def is_unity_catalog_model (name : String) : Bool :=
  name.data.any (fun c => c == '.')

/-! ## Experiment export (`experiment/export_experiment.py`) -/

/-- The slice of an MLflow run used by the export orchestrator:
`run.info.run_id`, `run.info.experiment_id`, `run.info.start_time`
(epoch milliseconds), `run.info.artifact_uri` and `run.data.tags`. -/
structure Run where
  run_id : String
  experiment_id : String
  start_time : Nat
  artifact_uri : String
  tags : TagMap
  deriving Repr, DecidableEq

/-- Python truthiness of the `None`-or-int `run_start_time`
(`None` and `0` are falsy). -/
def truthyNat : Option Nat → Bool
  | none => false
  | some n => n != 0

/-- Python truthiness of a `None`-or-string value
(`None` and `""` are falsy). -/
def truthyStr : Option String → Bool
  | none => false
  | some s => !s.data.isEmpty

/-- `_export_run`: skip the run (tail of lines 116-124) when the
start-time filter is truthy and the run started strictly earlier;
otherwise delegate to the single-run exporter `export_run` (an external
collaborator, abstracted as the outcome function `exportRunFn` of the
run id) and append the run id to exactly one of the two outcome lists
(lines 126-136). -/
def _export_run (exportRunFn : String → Bool) (r : Run)
    (ok_run_ids failed_run_ids : List String) (run_start_time : Option Nat) :
    List String × List String :=
  if truthyNat run_start_time && decide (r.start_time < run_start_time.getD 0) then
    (ok_run_ids, failed_run_ids)
  else if exportRunFn r.run_id then
    (ok_run_ids ++ [r.run_id], failed_run_ids)
  else
    (ok_run_ids, failed_run_ids ++ [r.run_id])

/-- The per-run loop of `export_experiment` (both the explicit-id branch
and the iterator branch run this same body): fold `_export_run` over the
enumerated runs, incrementing `num_runs_exported` for every enumerated
run, skipped or not. -/
def processRuns (exportRunFn : String → Bool) (run_start_time : Option Nat) :
    List Run → List String × List String → Nat →
    List String × List String × Nat
  | [], (ok, failed), n => (ok, failed, n)
  | r :: rest, (ok, failed), n =>
      processRuns exportRunFn run_start_time rest
        (_export_run exportRunFn r ok failed run_start_time) (n + 1)

/-- Whether `_export_run` keeps (does not skip) a run under the filter. -/
def keptRun (run_start_time : Option Nat) (r : Run) : Bool :=
  !(truthyNat run_start_time && decide (r.start_time < run_start_time.getD 0))

/-- The manifest `info` block written by `export_experiment`
(lines 85-90). -/
structure InfoAttr where
  num_total_runs : Nat
  num_ok_runs : Nat
  num_failed_runs : Nat
  failed_runs : List String
  deriving Repr, DecidableEq

/-- Level of the final per-experiment log line (lines 101-108):
`warning` when zero runs were enumerated, `info` otherwise.
(`error` exists in the logging interface but is never chosen here.) -/
inductive LogLevel where
  | warning
  | info
  | error
  deriving Repr, DecidableEq

/-- Everything `export_experiment` produces: the two outcome id lists,
the manifest (always written, lines 96-99), the final log level and the
returned pair `(len(ok), len(failed))`. -/
structure ExportOutcome where
  ok_run_ids : List String
  failed_run_ids : List String
  info_attr : InfoAttr
  manifest_runs : List String
  logLevel : LogLevel
  returnValue : Nat × Nat
  deriving Repr, DecidableEq

/-- Mode selection of `export_experiment` (lines 67-80): Python
truthiness of `run_ids` decides — a `None` or empty list falls through
to the iterator branch, a nonempty explicit id list is resolved through
`mlflow_client.get_run`.  `getRun` abstracts `mlflow_client.get_run`
and `searchRuns` the output of `SearchRunsIterator` (both external to
this file's sources). -/
def enumeratedRuns (getRun : String → Run) (searchRuns : List Run)
    (run_ids : Option (List String)) : List Run :=
  match run_ids with
  | some ids => if ids.isEmpty then searchRuns else ids.map getRun
  | none => searchRuns

/-- `export_experiment` (lines 64-109): run the per-run loop over the
enumerated runs and assemble the outcome.  The manifest is written
unconditionally; the final log line is a warning exactly when zero runs
were enumerated. -/
def export_experiment (getRun : String → Run) (searchRuns : List Run)
    (run_ids : Option (List String)) (run_start_time : Option Nat)
    (exportRunFn : String → Bool) : ExportOutcome :=
  let runs := enumeratedRuns getRun searchRuns run_ids
  let res := processRuns exportRunFn run_start_time runs ([], []) 0
  let ok := res.1
  let failed := res.2.1
  let n := res.2.2
  { ok_run_ids := ok
    failed_run_ids := failed
    info_attr :=
      { num_total_runs := n
        num_ok_runs := ok.length
        num_failed_runs := failed.length
        failed_runs := failed }
    manifest_runs := ok
    logLevel := if n == 0 then .warning else .info
    returnValue := (ok.length, failed.length) }

/-- The ok-list contribution of a run list: ids of runs that pass the
start-time filter and whose export succeeds, in enumeration order. -/
def okContrib (exportRunFn : String → Bool) (run_start_time : Option Nat)
    (runs : List Run) : List String :=
  (runs.filter (fun r => keptRun run_start_time r && exportRunFn r.run_id)).map
    (fun r => r.run_id)

/-- The failed-list contribution: ids of runs that pass the filter and
whose export fails, in enumeration order. -/
def failedContrib (exportRunFn : String → Bool) (run_start_time : Option Nat)
    (runs : List Run) : List String :=
  (runs.filter (fun r => keptRun run_start_time r && !exportRunFn r.run_id)).map
    (fun r => r.run_id)

/-! ## Model-version copy engine (`copy/copy_model_version.py`) -/

/-- The slice of an MLflow model version used by the copy engine.
Version numbers are strings in the MLflow API. -/
structure ModelVersion where
  name : String
  version : String
  source : String
  run_id : String
  current_stage : String
  description : String
  tags : TagMap
  aliases : List String
  deriving Repr, DecidableEq

/-- A caught `MlflowException` (only its `error_code` and message are
used, both printed at line 85). -/
structure MlflowExc where
  error_code : String
  message : String
  deriving Repr, DecidableEq

/-- `ExportTags.PREFIX_ROOT`.
Modelled from the spec: `common/source_tags.py` is absent from src/;
per the spec's data model, tag "keys may carry a reserved namespace
prefix marking system- or tool-injected provenance data", and the
literal tag key at line 102 of `copy_model_version.py`
(`...mlflow_exim.dst_client.tracking_uri`) fixes that namespace root to
`mlflow_exim`. -/
def PREFIX_ROOT : String := "mlflow_exim"

/-- `copy_utils.add_tag(src_tags, tags, key, prefix)`.
Modelled from the spec: `copy/copy_utils.py` is absent from src/; per
§4.4 step 5, "selected workspace-identifying tags copied from the
source run (only if present — absence is not an error)", the copied
binding is stored under the provenance namespace `pfx`. -/
def add_tag (srcTags : TagMap) (tags : TagMap) (key pfx : String) : TagMap :=
  match tagLookup srcTags key with
  | some v => dictInsert tags (pfx ++ "." ++ key) v
  | none => tags

/-- `_add_lineage_tags` (lines 90-112), value-level semantics: start
from a copy of the source version's tags, insert the five provenance
bindings, copy the four workspace-identifying run tags when present,
and — only when the destination model name is catalog-style — rebuild
the dict with every key's `.` replaced by `_`.  `srcGetRun` abstracts
`src_client.get_run`; the two tracking-URI arguments abstract
`src_client.tracking_uri` and `dst_client.tracking_uri`. -/
def _add_lineage_tags (src_version : ModelVersion) (run : Run)
    (dst_model_name : String) (srcGetRun : String → Run)
    (src_tracking_uri dst_tracking_uri : String) : TagMap :=
  let pfx := PREFIX_ROOT ++ ".src_run"
  let run := if src_version.run_id ≠ run.run_id then srcGetRun src_version.run_id else run
  let tags := src_version.tags
  let tags := dictInsert tags (PREFIX_ROOT ++ ".src_version.name") src_version.name
  let tags := dictInsert tags (PREFIX_ROOT ++ ".src_version.version") src_version.version
  let tags := dictInsert tags (PREFIX_ROOT ++ ".src_version.run_id") src_version.run_id
  let tags := dictInsert tags (PREFIX_ROOT ++ ".src_client.tracking_uri") src_tracking_uri
  let tags := dictInsert tags (PREFIX_ROOT ++ ".mlflow_exim.dst_client.tracking_uri") dst_tracking_uri
  let tags := add_tag run.tags tags "mlflow.databricks.workspaceURL" pfx
  let tags := add_tag run.tags tags "mlflow.databricks.webappURL" pfx
  let tags := add_tag run.tags tags "mlflow.databricks.workspaceID" pfx
  let tags := add_tag run.tags tags "mlflow.user" pfx
  if is_unity_catalog_model dst_model_name then
    dictOfItems (tags.map (fun kv => (sanitizeKey kv.1, kv.2)))
  else
    tags

/-- The alias-replication loop of `_copy_model_version` (lines 81-86):
a single `try` wraps the whole `for` loop, so the first failing
`set_registered_model_alias` call aborts the loop; the exception is
caught and printed.  `setAlias alias = none` models a successful call,
`some e` a raised `MlflowException`.  Returns the aliases actually set
(in order) and the caught exception, if any. -/
def setAliasesLoop (setAlias : String → Option MlflowExc) :
    List String → List String × Option MlflowExc
  | [] => ([], none)
  | a :: rest =>
      match setAlias a with
      | none =>
          let res := setAliasesLoop setAlias rest
          (a :: res.1, res.2)
      | some e => ([], some e)

/-- Observable outcome of `_copy_model_version`: the destination
version returned by the final re-fetch (line 87) with the aliases that
were actually set, the stage transitioned to (when the destination is
classic-style), and the alias exception that was caught (if any). -/
structure CopyResult where
  dstVersion : ModelVersion
  stageTransitioned : Option String
  aliasesSet : List String
  caughtAliasError : Option MlflowExc
  deriving Repr, DecidableEq

/-- `_copy_model_version` (lines 57-87).  External collaborators are
abstracted as parameters: `copyRunFn` is `copy_run._copy`, `srcGetRun`
is `src_client.get_run`, `getModelNameFn` is `copy_utils.get_model_name`
(all in files absent from src/), and `newVersionNumber` is the version
number the destination endpoint assigns in `create_model_version`.
The tag map written to the destination version is the lineage-tagged
map when `copy_lineage_tags` is set and the source version's own tags
otherwise (lines 65-68); stage transition happens only for a
classic-style destination (lines 78-79); the alias loop is
`setAliasesLoop` (lines 81-86). -/
def _copy_model_version (src_version : ModelVersion) (dst_model_name : String)
    (dst_experiment_name : Option String)
    (copyRunFn : String → String → Run) (srcGetRun : String → Run)
    (getModelNameFn : String → String)
    (src_tracking_uri dst_tracking_uri : String)
    (newVersionNumber : String)
    (setAlias : String → Option MlflowExc)
    (copy_lineage_tags : Bool) : CopyResult :=
  let dst_run :=
    if truthyStr dst_experiment_name then
      copyRunFn src_version.run_id (dst_experiment_name.getD "")
    else
      srcGetRun src_version.run_id
  let mlflow_model_name := getModelNameFn src_version.source
  let source_uri := dst_run.artifact_uri ++ "/" ++ mlflow_model_name
  let tags :=
    if copy_lineage_tags then
      _add_lineage_tags src_version dst_run dst_model_name srcGetRun
        src_tracking_uri dst_tracking_uri
    else
      src_version.tags
  let created : ModelVersion :=
    { name := dst_model_name
      version := newVersionNumber
      source := source_uri
      run_id := dst_run.run_id
      current_stage := "None"
      description := src_version.description
      tags := tags
      aliases := [] }
  let stageT :=
    if !is_unity_catalog_model created.name then some src_version.current_stage
    else none
  let created :=
    match stageT with
    | some st => { created with current_stage := st }
    | none => created
  let aliasRes := setAliasesLoop setAlias src_version.aliases
  { dstVersion := { created with aliases := aliasRes.1 }
    stageTransitioned := stageT
    aliasesSet := aliasRes.1
    caughtAliasError := aliasRes.2 }

/-! ## Transport client (`client/http_client.py`) -/

/-- `rsp.json()` outcome vs `rsp.text` fallback of `_get_response_text`:
the parsed body when the response parses as JSON, the raw text
otherwise.  The parsed-JSON representation is abstract (`β`). -/
inductive ResponseBody (β : Type) where
  | parsed (j : β)
  | raw (t : String)
  deriving Repr, DecidableEq

/-- The slice of a `requests` response used by `_check_response`:
`status_code`, `reason`, `url`, `text`, and the JSON parse of the body
(`none` models a `JSONDecodeError`). -/
structure HttpResponse (β : Type) where
  status_code : Int
  reason : String
  url : String
  text : String
  json : Option β
  deriving Repr, DecidableEq

/-- `MlflowExportImportException(msg, **kwargs)` — keyword arguments the
constructor was not given stay at their defaults (`none`).  `α` is the
type of the submitted request parameters, `β` the parsed-JSON type. -/
structure MlflowExportImportException (α β : Type) where
  message : String
  http_status_code : Int
  http_reason : Option String := none
  uri : Option String := none
  params : Option α := none
  text : Option (ResponseBody β) := none
  deriving Repr, DecidableEq

/-- `HttpClient._get_response_text` (lines 113-117). -/
def _get_response_text {β : Type} (rsp : HttpResponse β) : ResponseBody β :=
  match rsp.json with
  | some j => .parsed j
  | none => .raw rsp.text

/-- `HttpClient._check_response` (lines 119-128): raise (return `some`
exception) exactly when the status code is outside 200-299, carrying
status, reason, URI, the submitted parameters and the
parsed-or-raw-text body. -/
def _check_response {α β : Type} (rsp : HttpResponse β) (params : Option α) :
    Option (MlflowExportImportException α β) :=
  if rsp.status_code < 200 || rsp.status_code > 299 then
    some { message := rsp.reason
           http_status_code := rsp.status_code
           http_reason := some rsp.reason
           uri := some rsp.url
           params := params
           text := some (_get_response_text rsp) }
  else
    none

/-- `os.path.join(a, b)` for the two-argument POSIX case used at
line 29: an absolute `b` replaces `a`; otherwise the parts are joined,
inserting `/` unless `a` is empty or already ends in `/` (the
starts-with / ends-with / is-empty tests are phrased on the character
list of the string). -/
def osPathJoin (a b : String) : String :=
  if b.data.head? = some '/' then b
  else if a.data.isEmpty || a.data.getLast? = some '/' then a ++ b
  else a ++ "/" ++ b

/-- The state a successfully constructed `HttpClient` carries:
`api_uri` and `token`. -/
structure HttpClientState where
  api_uri : String
  token : Option String
  deriving Repr, DecidableEq

/-- `HttpClient.__init__` (lines 16-30).  `env` abstracts
`mlflow_auth_utils.get_mlflow_host_token()` (a file absent from src/):
the `(host, token)` pair resolved from process-wide configuration,
each component possibly `None`.  With no explicit host, both host and
token are taken from `env`, and a still-missing host raises
`MlflowExportImportException(..., http_status_code=401)`; with an
explicit host, `env` is never consulted.  The model is pure: no request
is issued during construction, so a failed construction aborts before
any network call. -/
def HttpClient.init (api_name : String) (host token : Option String)
    (env : Option String × Option String) :
    Except (MlflowExportImportException Unit Unit) HttpClientState :=
  match host with
  | none =>
      match env with
      | (none, _) =>
          .error { message := "MLflow tracking URI (MLFLOW_TRACKING_URI environment variable) is not configured correctly"
                   http_status_code := 401 }
      | (some h, t) => .ok { api_uri := osPathJoin h api_name, token := t }
  | some h => .ok { api_uri := osPathJoin h api_name, token := token }

/-! ## Reference-semantics model of `_add_lineage_tags` (frame effect)

Python locals hold references to dicts; `deepcopy` allocates a fresh
dict.  To state that `_add_lineage_tags` never writes through the
source version's own tag dict, the same source lines are embedded once
more over an explicit store of dicts (`Heap`), with the source
version's tag dict living at a store index. -/

/-- A store of Python dicts; a reference is an index. -/
abbrev Heap := List TagMap

/-- Dereference: the dict at index `r`. -/
def heapGet (h : Heap) (r : Nat) : TagMap := h.getD r []

/-- In-place `d[k] = v` on the dict referenced by `r`. -/
def heapDictSet (h : Heap) (r : Nat) (k v : String) : Heap :=
  h.set r (dictInsert (heapGet h r) k v)

/-- `copy_utils.add_tag` over the store (same spec-modelled behaviour as
`add_tag`, writing through the reference `r`). -/
def add_tag_heap (srcTags : TagMap) (h : Heap) (r : Nat) (key pfx : String) :
    Heap :=
  match tagLookup srcTags key with
  | some v => heapDictSet h r (pfx ++ "." ++ key) v
  | none => h

/-- `_add_lineage_tags` (lines 90-112) over the store: `deepcopy`
allocates a fresh dict at index `h.length` holding a copy of the dict
at `srcTagsRef` (the source version's `tags`); every subsequent
`tags[k] = v` writes through that fresh reference; the catalog-style
sanitization rebuilds yet another fresh dict.  Returns the final store
and the reference to the returned dict. -/
def _add_lineage_tags_heap (h : Heap) (src_version : ModelVersion)
    (srcTagsRef : Nat) (run : Run) (dst_model_name : String)
    (srcGetRun : String → Run) (src_tracking_uri dst_tracking_uri : String) :
    Heap × Nat :=
  let pfx := PREFIX_ROOT ++ ".src_run"
  let run := if src_version.run_id ≠ run.run_id then srcGetRun src_version.run_id else run
  let tagsRef := h.length
  let h := h ++ [heapGet h srcTagsRef]
  let h := heapDictSet h tagsRef (PREFIX_ROOT ++ ".src_version.name") src_version.name
  let h := heapDictSet h tagsRef (PREFIX_ROOT ++ ".src_version.version") src_version.version
  let h := heapDictSet h tagsRef (PREFIX_ROOT ++ ".src_version.run_id") src_version.run_id
  let h := heapDictSet h tagsRef (PREFIX_ROOT ++ ".src_client.tracking_uri") src_tracking_uri
  let h := heapDictSet h tagsRef (PREFIX_ROOT ++ ".mlflow_exim.dst_client.tracking_uri") dst_tracking_uri
  let h := add_tag_heap run.tags h tagsRef "mlflow.databricks.workspaceURL" pfx
  let h := add_tag_heap run.tags h tagsRef "mlflow.databricks.webappURL" pfx
  let h := add_tag_heap run.tags h tagsRef "mlflow.databricks.workspaceID" pfx
  let h := add_tag_heap run.tags h tagsRef "mlflow.user" pfx
  if is_unity_catalog_model dst_model_name then
    (h ++ [dictOfItems ((heapGet h tagsRef).map (fun kv => (sanitizeKey kv.1, kv.2)))],
     h.length)
  else
    (h, tagsRef)

/-! ## Artifact-path resolver (`model/import_model._extract_model_path`)

Modelled from the spec: `_extract_model_path` lives in
`mlflow_export_import/model/import_model.py`, which is absent from
src/ — only its test (`tests/test_models.py`) is present.  Per §4.3 the
resolver "must strip everything up to and including the run id and the
literal `artifacts/` marker, returning only the trailing path,
regardless of which of two recognized source layout conventions
(platform-managed storage path vs. a locally-rooted tracking directory)
produced the URI", and must be a pure string transform.  A URI is
modelled as its `/`-separated segment list. -/

/-- Modelled from the spec: scan the URI's segments for the run id,
require the next segment to be the literal `artifacts` marker, and
return the trailing model path; a URI with no embedded run id (or no
marker after it) fails cleanly with `none` (the spec's
`UnrecognizedArtifactPathError`) rather than truncating. -/
def _extract_model_path (segments : List String) (run_id : String) :
    Option (List String) :=
  match segments with
  | [] => none
  | s :: rest =>
      if s = run_id then
        match rest with
        | "artifacts" :: path => some path
        | _ => none
      else
        _extract_model_path rest run_id

/-- The platform-managed storage convention of
`test_extract_model_path_databricks`:
`dbfs:/databricks/mlflow-tracking/<exp>/<run_id>/artifacts/<path>`. -/
def dbfsSourceSegments (experiment_id run_id : String) (path : List String) :
    List String :=
  ["dbfs:", "databricks", "mlflow-tracking", experiment_id, run_id, "artifacts"]
    ++ path

/-- The locally-rooted tracking-directory convention of
`test_extract_model_path_oss`:
`<root...>/mlruns/<exp>/<run_id>/artifacts/<path>`. -/
def localSourceSegments (root : List String) (experiment_id run_id : String)
    (path : List String) : List String :=
  root ++ ["mlruns", experiment_id, run_id, "artifacts"] ++ path

/-! ## Concrete fixtures used by closed counterexamples and witnesses -/

/-- A sample run. -/
def sampleRun : Run :=
  { run_id := "r1"
    experiment_id := "e1"
    start_time := 100
    artifact_uri := "dbfs:/x/r1/artifacts"
    tags := [("mlflow.user", "alice")] }

/-- A sample source model version whose tag key contains a `.` and which
carries three aliases. -/
def sampleVersionDotted : ModelVersion :=
  { name := "src_model"
    version := "3"
    source := "dbfs:/x/r1/artifacts/models/m"
    run_id := "r1"
    current_stage := "Production"
    description := "d"
    tags := [("a.b", "v")]
    aliases := ["a1", "a2", "a3"] }

/-- A sample run with an early start time. -/
def runA : Run :=
  { run_id := "rA"
    experiment_id := "e1"
    start_time := 50
    artifact_uri := "u"
    tags := [] }

/-- A sample run with a late start time. -/
def runB : Run :=
  { run_id := "rB"
    experiment_id := "e1"
    start_time := 200
    artifact_uri := "u"
    tags := [] }

/-- A forced single-run-export outcome: the export of `rB` fails, every
other run succeeds. -/
def failB : String → Bool := fun id => !(id == "rB")

/-! # Theorems -/

/-! ## Helper lemmas: the per-run export loop -/

theorem _export_run_eq (exportRunFn : String → Bool) (r : Run)
    (ok failed : List String) (rst : Option Nat) :
    _export_run exportRunFn r ok failed rst =
      if keptRun rst r then
        if exportRunFn r.run_id then (ok ++ [r.run_id], failed)
        else (ok, failed ++ [r.run_id])
      else (ok, failed) := by
  unfold _export_run keptRun
  by_cases h : (truthyNat rst && decide (r.start_time < rst.getD 0)) = true <;>
    simp [h]

theorem processRuns_spec (exportRunFn : String → Bool) (rst : Option Nat)
    (runs : List Run) (ok failed : List String) (n : Nat) :
    processRuns exportRunFn rst runs (ok, failed) n =
      (ok ++ okContrib exportRunFn rst runs,
       failed ++ failedContrib exportRunFn rst runs,
       n + runs.length) := by
  induction runs generalizing ok failed n with
  | nil => simp [processRuns, okContrib, failedContrib]
  | cons r rest ih =>
      simp only [processRuns, _export_run_eq, okContrib, failedContrib,
        List.filter_cons]
      by_cases hk : keptRun rst r = true
      · by_cases hf : exportRunFn r.run_id = true
        · simp [hk, hf, ih, okContrib, failedContrib, List.length_cons]
          omega
        · simp [hk, hf, ih, okContrib, failedContrib, List.length_cons]
          omega
      · simp [hk, ih, okContrib, failedContrib]
        omega

theorem export_experiment_spec (getRun : String → Run) (searchRuns : List Run)
    (run_ids : Option (List String)) (rst : Option Nat)
    (exportRunFn : String → Bool) :
    export_experiment getRun searchRuns run_ids rst exportRunFn =
      { ok_run_ids := okContrib exportRunFn rst
          (enumeratedRuns getRun searchRuns run_ids)
        failed_run_ids := failedContrib exportRunFn rst
          (enumeratedRuns getRun searchRuns run_ids)
        info_attr :=
          { num_total_runs := (enumeratedRuns getRun searchRuns run_ids).length
            num_ok_runs := (okContrib exportRunFn rst
              (enumeratedRuns getRun searchRuns run_ids)).length
            num_failed_runs := (failedContrib exportRunFn rst
              (enumeratedRuns getRun searchRuns run_ids)).length
            failed_runs := failedContrib exportRunFn rst
              (enumeratedRuns getRun searchRuns run_ids) }
        manifest_runs := okContrib exportRunFn rst
          (enumeratedRuns getRun searchRuns run_ids)
        logLevel := if (enumeratedRuns getRun searchRuns run_ids).length == 0
          then .warning else .info
        returnValue := ((okContrib exportRunFn rst
            (enumeratedRuns getRun searchRuns run_ids)).length,
          (failedContrib exportRunFn rst
            (enumeratedRuns getRun searchRuns run_ids)).length) } := by
  unfold export_experiment
  simp [processRuns_spec]

theorem keptRun_none (r : Run) : keptRun none r = true := by
  simp [keptRun, truthyNat]

theorem contrib_length (exportRunFn : String → Bool) (rst : Option Nat)
    (runs : List Run) :
    (okContrib exportRunFn rst runs).length
      + (failedContrib exportRunFn rst runs).length
      = (runs.filter (keptRun rst)).length := by
  induction runs with
  | nil => simp [okContrib, failedContrib]
  | cons r rest ih =>
      by_cases hk : keptRun rst r = true <;>
        by_cases hf : exportRunFn r.run_id = true <;>
          simp [okContrib, failedContrib, List.filter_cons, hk, hf] at * <;>
          omega

theorem mem_okContrib {exportRunFn : String → Bool} {rst : Option Nat}
    {runs : List Run} {id : String}
    (h : id ∈ okContrib exportRunFn rst runs) :
    ∃ r ∈ runs, keptRun rst r = true ∧ exportRunFn r.run_id = true
      ∧ r.run_id = id := by
  rcases List.mem_map.mp h with ⟨r, hr, hid⟩
  rcases List.mem_filter.mp hr with ⟨hmem, hcond⟩
  simp only [Bool.and_eq_true] at hcond
  exact ⟨r, hmem, hcond.1, hcond.2, hid⟩

theorem mem_failedContrib {exportRunFn : String → Bool} {rst : Option Nat}
    {runs : List Run} {id : String}
    (h : id ∈ failedContrib exportRunFn rst runs) :
    ∃ r ∈ runs, keptRun rst r = true ∧ exportRunFn r.run_id = false
      ∧ r.run_id = id := by
  rcases List.mem_map.mp h with ⟨r, hr, hid⟩
  rcases List.mem_filter.mp hr with ⟨hmem, hcond⟩
  simp only [Bool.and_eq_true] at hcond
  exact ⟨r, hmem, hcond.1, by simpa using hcond.2, hid⟩

/-! ## Claim C3 -/

/-- C3: for every experiment export over N enumerated runs (in both the
explicit-run-id-list mode and the iterator mode — `run_ids` ranges over
both) where per-run exports fail according to the single-run exporter's
outcome, after orchestration the ok and failed id lists are disjoint,
their lengths sum to N, and the manifest's `failed_runs` list is exactly
the ids of the runs whose export failed, in enumeration order. -/
theorem export_partition_disjoint_manifest (getRun : String → Run)
    (searchRuns : List Run) (run_ids : Option (List String))
    (exportRunFn : String → Bool) :
    let res := export_experiment getRun searchRuns run_ids none exportRunFn
    let runs := enumeratedRuns getRun searchRuns run_ids
    res.ok_run_ids.length + res.failed_run_ids.length = runs.length ∧
    (∀ id, id ∈ res.ok_run_ids → id ∉ res.failed_run_ids) ∧
    res.info_attr.failed_runs =
      (runs.filter (fun r => !exportRunFn r.run_id)).map (fun r => r.run_id) := by
  dsimp only
  rw [export_experiment_spec]
  refine ⟨?_, ?_, ?_⟩
  · rw [contrib_length]
    simp [keptRun_none]
  · intro id hok hfail
    rcases mem_okContrib hok with ⟨r1, _, _, hf1, hid1⟩
    rcases mem_failedContrib hfail with ⟨r2, _, _, hf2, hid2⟩
    rw [hid1] at hf1
    rw [hid2] at hf2
    rw [hf1] at hf2
    cases hf2
  · simp [failedContrib, keptRun_none]

/-- Witness for C3 at a concrete two-run batch where the export of `rB`
is forced to fail. -/
theorem export_partition_disjoint_manifest_witness :
    (let res := export_experiment (fun _ => sampleRun) [runA, runB] none none failB
     let runs := enumeratedRuns (fun _ => sampleRun) [runA, runB] none
     res.ok_run_ids.length + res.failed_run_ids.length = runs.length ∧
     (∀ id, id ∈ res.ok_run_ids → id ∉ res.failed_run_ids) ∧
     res.info_attr.failed_runs =
       (runs.filter (fun r => !failB r.run_id)).map (fun r => r.run_id)) ∧
    (export_experiment (fun _ => sampleRun) [runA, runB] none none
      failB).ok_run_ids = ["rA"] ∧
    (export_experiment (fun _ => sampleRun) [runA, runB] none none
      failB).info_attr.failed_runs = ["rB"] :=
  ⟨export_partition_disjoint_manifest (fun _ => sampleRun) [runA, runB] none failB,
   by decide, by decide⟩

/-! ## Claim C7 -/

/-- C7: for every experiment export invoked with a run-start-time filter
`T` (whose enumerated runs have pairwise distinct ids), no run whose
`start_time` is strictly less than `T` appears in the ok list or in the
failed list — in both the explicit-run-id-list mode and the iterator
mode (`run_ids` ranges over both). -/
theorem export_run_start_time_filter (getRun : String → Run)
    (searchRuns : List Run) (run_ids : Option (List String))
    (exportRunFn : String → Bool) (T : Nat)
    (hnodup : ((enumeratedRuns getRun searchRuns run_ids).map
      (fun r => r.run_id)).Nodup) :
    ∀ r ∈ enumeratedRuns getRun searchRuns run_ids,
      r.start_time < T →
        r.run_id ∉ (export_experiment getRun searchRuns run_ids (some T)
          exportRunFn).ok_run_ids ∧
        r.run_id ∉ (export_experiment getRun searchRuns run_ids (some T)
          exportRunFn).failed_run_ids := by
  intro r hr hlt
  have hT : T ≠ 0 := by
    intro h0
    rw [h0] at hlt
    exact Nat.not_lt_zero _ hlt
  have hkept : keptRun (some T) r = false := by
    simp [keptRun, truthyNat, hT, hlt]
  rw [export_experiment_spec]
  constructor
  · intro hok
    rcases mem_okContrib hok with ⟨r2, hr2, hk2, _, hid⟩
    have heq : r2 = r := List.inj_on_of_nodup_map hnodup hr2 hr hid
    rw [heq, hkept] at hk2
    cases hk2
  · intro hfail
    rcases mem_failedContrib hfail with ⟨r2, hr2, hk2, _, hid⟩
    have heq : r2 = r := List.inj_on_of_nodup_map hnodup hr2 hr hid
    rw [heq, hkept] at hk2
    cases hk2

/-- Witness for C7: with filter `T = 100`, run `rA` (start time 50) is
in neither outcome list. -/
theorem export_run_start_time_filter_witness :
    runA.start_time < 100 ∧
    runA.run_id ∉ (export_experiment (fun _ => sampleRun) [runA, runB] none
      (some 100) failB).ok_run_ids ∧
    runA.run_id ∉ (export_experiment (fun _ => sampleRun) [runA, runB] none
      (some 100) failB).failed_run_ids :=
  ⟨by decide,
   (export_run_start_time_filter (fun _ => sampleRun) [runA, runB] none failB 100
     (by decide) runA (by decide) (by decide)).1,
   (export_run_start_time_filter (fun _ => sampleRun) [runA, runB] none failB 100
     (by decide) runA (by decide) (by decide)).2⟩

/-! ## Claim C8 -/

/-- C8: for every experiment export in which zero runs are enumerated,
the export still produces a manifest (with zero counters and empty run
lists), the ok and failed lists are both empty, the outcome is logged at
warning (not error) level, and the export completes successfully,
returning `(0, 0)`. -/
theorem export_zero_runs_warning (getRun : String → Run)
    (searchRuns : List Run) (run_ids : Option (List String))
    (rst : Option Nat) (exportRunFn : String → Bool)
    (h : enumeratedRuns getRun searchRuns run_ids = []) :
    let res := export_experiment getRun searchRuns run_ids rst exportRunFn
    res.ok_run_ids = [] ∧
    res.failed_run_ids = [] ∧
    res.info_attr = { num_total_runs := 0, num_ok_runs := 0,
                      num_failed_runs := 0, failed_runs := [] } ∧
    res.manifest_runs = [] ∧
    res.logLevel = .warning ∧
    res.logLevel ≠ .error ∧
    res.returnValue = (0, 0) := by
  dsimp only
  rw [export_experiment_spec, h]
  simp [okContrib, failedContrib]

/-- Witness for C8: iterator mode with an empty search result. -/
theorem export_zero_runs_warning_witness :
    (let res := export_experiment (fun _ => sampleRun) [] none none failB
     res.ok_run_ids = [] ∧
     res.failed_run_ids = [] ∧
     res.info_attr = { num_total_runs := 0, num_ok_runs := 0,
                       num_failed_runs := 0, failed_runs := [] } ∧
     res.manifest_runs = [] ∧
     res.logLevel = .warning ∧
     res.logLevel ≠ .error ∧
     res.returnValue = (0, 0)) :=
  export_zero_runs_warning (fun _ => sampleRun) [] none none failB rfl

/-! ## Claim C10 -/

/-- C10: in every experiment export (whose enumerated runs have pairwise
distinct ids), the manifest's `num_total_runs` counter counts every
enumerated run including the ones skipped by the start-time filter;
skipped runs appear in neither the ok nor the failed list; hence
`num_ok_runs + num_failed_runs ≤ num_total_runs`, with equality exactly
when no enumerated run was skipped. -/
theorem export_total_runs_counts (getRun : String → Run)
    (searchRuns : List Run) (run_ids : Option (List String))
    (rst : Option Nat) (exportRunFn : String → Bool)
    (hnodup : ((enumeratedRuns getRun searchRuns run_ids).map
      (fun r => r.run_id)).Nodup) :
    let runs := enumeratedRuns getRun searchRuns run_ids
    let res := export_experiment getRun searchRuns run_ids rst exportRunFn
    res.info_attr.num_total_runs = runs.length ∧
    (∀ r ∈ runs, keptRun rst r = false →
       r.run_id ∉ res.ok_run_ids ∧ r.run_id ∉ res.failed_run_ids) ∧
    res.info_attr.num_ok_runs + res.info_attr.num_failed_runs
      ≤ res.info_attr.num_total_runs ∧
    (res.info_attr.num_ok_runs + res.info_attr.num_failed_runs
       = res.info_attr.num_total_runs ↔
     ∀ r ∈ runs, keptRun rst r = true) := by
  dsimp only
  rw [export_experiment_spec]
  refine ⟨rfl, ?_, ?_, ?_⟩
  · intro r hr hkf
    constructor
    · intro hok
      rcases mem_okContrib hok with ⟨r2, hr2, hk2, _, hid⟩
      have heq : r2 = r := List.inj_on_of_nodup_map hnodup hr2 hr hid
      rw [heq, hkf] at hk2
      cases hk2
    · intro hfail
      rcases mem_failedContrib hfail with ⟨r2, hr2, hk2, _, hid⟩
      have heq : r2 = r := List.inj_on_of_nodup_map hnodup hr2 hr hid
      rw [heq, hkf] at hk2
      cases hk2
  · rw [contrib_length]
    exact List.length_filter_le _ _
  · rw [contrib_length]
    simp

/-- Witness for C10: filter `T = 100` skips `rA` (start time 50) and
keeps `rB`, so the counters read `total = 2`, `ok + failed = 1`. -/
theorem export_total_runs_counts_witness :
    (let runs := enumeratedRuns (fun _ => sampleRun) [runA, runB] none
     let res := export_experiment (fun _ => sampleRun) [runA, runB] none
       (some 100) failB
     res.info_attr.num_total_runs = runs.length ∧
     (∀ r ∈ runs, keptRun (some 100) r = false →
        r.run_id ∉ res.ok_run_ids ∧ r.run_id ∉ res.failed_run_ids) ∧
     res.info_attr.num_ok_runs + res.info_attr.num_failed_runs
       ≤ res.info_attr.num_total_runs ∧
     (res.info_attr.num_ok_runs + res.info_attr.num_failed_runs
        = res.info_attr.num_total_runs ↔
      ∀ r ∈ runs, keptRun (some 100) r = true)) ∧
    (export_experiment (fun _ => sampleRun) [runA, runB] none (some 100)
      failB).info_attr.num_total_runs = 2 ∧
    (export_experiment (fun _ => sampleRun) [runA, runB] none (some 100)
      failB).info_attr.num_ok_runs = 0 ∧
    (export_experiment (fun _ => sampleRun) [runA, runB] none (some 100)
      failB).info_attr.num_failed_runs = 1 :=
  ⟨export_total_runs_counts (fun _ => sampleRun) [runA, runB] none (some 100)
     failB (by decide),
   by decide, by decide, by decide⟩

/-! ## Claim C4 -/

/-- C4: for every HTTP response received by the transport client, an
`MlflowExportImportException` carrying the status code, reason phrase,
request URI, submitted parameters, and the parsed (or raw-text if
unparseable) response body is raised if and only if the status code is
outside 200-299; a 2xx response never raises. -/
theorem check_response_raises_iff {α β : Type} (rsp : HttpResponse β)
    (params : Option α) :
    ((_check_response rsp params).isSome ↔
      (rsp.status_code < 200 ∨ 299 < rsp.status_code)) ∧
    (∀ e, _check_response rsp params = some e →
      e.http_status_code = rsp.status_code ∧
      e.http_reason = some rsp.reason ∧
      e.message = rsp.reason ∧
      e.uri = some rsp.url ∧
      e.params = params ∧
      e.text = some (_get_response_text rsp)) ∧
    (200 ≤ rsp.status_code → rsp.status_code ≤ 299 →
      _check_response rsp params = none) := by
  unfold _check_response
  by_cases h : rsp.status_code < 200 ∨ 299 < rsp.status_code
  · refine ⟨?_, ?_, ?_⟩
    · rw [if_pos (by simpa using h)]
      exact iff_of_true rfl h
    · intro e he
      rw [if_pos (by simpa using h)] at he
      cases he
      exact ⟨rfl, rfl, rfl, rfl, rfl, rfl⟩
    · intro h1 h2
      exact absurd h (by omega)
  · refine ⟨?_, ?_, ?_⟩
    · rw [if_neg (by simpa using h)]
      exact iff_of_false (by simp) h
    · intro e he
      rw [if_neg (by simpa using h)] at he
      cases he
    · intro _ _
      rw [if_neg (by simpa using h)]

/-- Witness for C4: a 404 response with an unparseable body raises with
all context fields; a 200 response does not raise. -/
theorem check_response_raises_iff_witness :
    (_check_response (α := String)
      { status_code := 404, reason := "Not Found", url := "http://h/api",
        text := "oops", json := (none : Option String) }
      (some "q") =
      some { message := "Not Found", http_status_code := 404,
             http_reason := some "Not Found", uri := some "http://h/api",
             params := some "q", text := some (.raw "oops") }) ∧
    (_check_response (α := String)
      { status_code := 200, reason := "OK", url := "http://h/api",
        text := "{}", json := (some "{}" : Option String) }
      (some "q") = none) :=
  ⟨by
    have h := (check_response_raises_iff (α := String)
      { status_code := 404, reason := "Not Found", url := "http://h/api",
        text := "oops", json := (none : Option String) } (some "q")).1
    rfl,
   (check_response_raises_iff (α := String)
      { status_code := 200, reason := "OK", url := "http://h/api",
        text := "{}", json := (some "{}" : Option String) }
      (some "q")).2.2 (by decide) (by decide)⟩

/-! ## Claim C6 -/

/-- C6: constructing a transport client with no explicit host derives
the `(host, credential)` pair from process-wide configuration (`env`),
and if no host/credential can be resolved there the construction fails
with the 401-status configuration exception; the model is pure, so the
failure happens before any network call.  Constructing with an explicit
host never consults the environment: the result is fully determined
without reference to `env`. -/
theorem http_client_init_auth (api_name : String) (token : Option String)
    (env : Option String × Option String) (h : String) :
    (env.1 = none →
      HttpClient.init api_name none token env =
        .error { message := "MLflow tracking URI (MLFLOW_TRACKING_URI environment variable) is not configured correctly",
                 http_status_code := 401 }) ∧
    (∀ hh t, env = (some hh, t) →
      HttpClient.init api_name none token env =
        .ok { api_uri := osPathJoin hh api_name, token := t }) ∧
    (HttpClient.init api_name (some h) token env =
      .ok { api_uri := osPathJoin h api_name, token := token }) := by
  refine ⟨?_, ?_, rfl⟩
  · intro h1
    rcases env with ⟨eh, et⟩
    cases eh with
    | none => rfl
    | some v => cases h1
  · intro hh t h2
    rw [h2]
    rfl

/-- Witness for C6: an empty environment makes construction fail with
status 401; an explicit host succeeds for any environment. -/
theorem http_client_init_auth_witness :
    (HttpClient.init "api/2.0/mlflow" none none (none, none) =
      .error { message := "MLflow tracking URI (MLFLOW_TRACKING_URI environment variable) is not configured correctly",
               http_status_code := 401 }) ∧
    (HttpClient.init "api/2.0/mlflow" none none (some "http://host", some "tok") =
      .ok { api_uri := "http://host/api/2.0/mlflow", token := some "tok" }) ∧
    (HttpClient.init "api/2.0/mlflow" (some "http://host") (some "tok") (none, none) =
      .ok { api_uri := "http://host/api/2.0/mlflow", token := some "tok" }) :=
  ⟨(http_client_init_auth "api/2.0/mlflow" none (none, none) "h").1 rfl,
   (http_client_init_auth "api/2.0/mlflow" none
     (some "http://host", some "tok") "h").2.1 "http://host" (some "tok") rfl,
   (http_client_init_auth "api/2.0/mlflow" (some "tok")
     (none, none) "http://host").2.2⟩

/-! ## Helper lemmas: tag-key sanitization -/

theorem sanitizeKey_no_dot (s : String) : '.' ∉ (sanitizeKey s).data := by
  intro hmem
  have hmem2 : '.' ∈ s.data.map (fun c => if c == '.' then '_' else c) := hmem
  rcases List.mem_map.mp hmem2 with ⟨c, _, hc⟩
  cases hcb : (c == '.') with
  | true =>
      rw [hcb] at hc
      simp only [if_true] at hc
      exact absurd hc (by decide)
  | false =>
      rw [hcb] at hc
      simp only [Bool.false_eq_true, if_false] at hc
      rw [hc] at hcb
      exact absurd hcb (by decide)

theorem mem_dictInsert {m : TagMap} {k v : String} {p : String × String}
    (hp : p ∈ dictInsert m k v) : p ∈ m ∨ p.1 = k := by
  unfold dictInsert at hp
  by_cases hany : m.any (fun q => q.1 == k) = true
  · rw [if_pos hany] at hp
    rcases List.mem_map.mp hp with ⟨q, hq, he⟩
    by_cases hqk : (q.1 == k) = true
    · rw [if_pos hqk] at he
      right
      rw [← he]
    · rw [if_neg hqk] at he
      left
      exact he ▸ hq
  · rw [if_neg hany] at hp
    rcases List.mem_append.mp hp with hl | hl
    · exact Or.inl hl
    · right
      have he : p = (k, v) := by simpa using hl
      rw [he]

theorem mem_foldl_dictInsert (items : List (String × String)) (acc : TagMap)
    (p : String × String)
    (hp : p ∈ items.foldl (fun m q => dictInsert m q.1 q.2) acc) :
    p ∈ acc ∨ ∃ q ∈ items, p.1 = q.1 := by
  induction items generalizing acc with
  | nil => exact Or.inl hp
  | cons q rest ih =>
      rcases ih (dictInsert acc q.1 q.2) hp with hl | hl
      · rcases mem_dictInsert hl with h2 | h2
        · exact Or.inl h2
        · exact Or.inr ⟨q, List.mem_cons_self _ _, h2⟩
      · rcases hl with ⟨q2, hq2, he⟩
        exact Or.inr ⟨q2, List.mem_cons_of_mem _ hq2, he⟩

theorem mem_dictOfItems {items : List (String × String)} {p : String × String}
    (hp : p ∈ dictOfItems items) : ∃ q ∈ items, p.1 = q.1 := by
  rcases mem_foldl_dictInsert items [] p hp with hl | hl
  · cases hl
  · exact hl

theorem add_lineage_tags_uc_no_dot (src_version : ModelVersion) (run : Run)
    (dst_model_name : String) (srcGetRun : String → Run)
    (src_tracking_uri dst_tracking_uri : String)
    (huc : is_unity_catalog_model dst_model_name = true) :
    ∀ kv ∈ _add_lineage_tags src_version run dst_model_name srcGetRun
      src_tracking_uri dst_tracking_uri, '.' ∉ kv.1.data := by
  intro kv hkv
  simp only [_add_lineage_tags, huc, if_true] at hkv
  rcases mem_dictOfItems hkv with ⟨q, hq, he⟩
  rcases List.mem_map.mp hq with ⟨q0, _, hq0⟩
  rw [he, ← hq0]
  exact sanitizeKey_no_dot _

/-- The tag map `_copy_model_version` writes to the destination version:
the lineage-tagged map when requested, the source version's own tags
otherwise. -/
theorem copy_model_version_tags (src_version : ModelVersion)
    (dst_model_name : String) (dst_experiment_name : Option String)
    (copyRunFn : String → String → Run) (srcGetRun : String → Run)
    (getModelNameFn : String → String)
    (src_tracking_uri dst_tracking_uri newVersionNumber : String)
    (setAlias : String → Option MlflowExc) (copy_lineage_tags : Bool) :
    (_copy_model_version src_version dst_model_name dst_experiment_name
        copyRunFn srcGetRun getModelNameFn src_tracking_uri dst_tracking_uri
        newVersionNumber setAlias copy_lineage_tags).dstVersion.tags =
      if copy_lineage_tags then
        _add_lineage_tags src_version
          (if truthyStr dst_experiment_name then
            copyRunFn src_version.run_id (dst_experiment_name.getD "")
          else srcGetRun src_version.run_id)
          dst_model_name srcGetRun src_tracking_uri dst_tracking_uri
      else src_version.tags := by
  unfold _copy_model_version
  by_cases h : is_unity_catalog_model dst_model_name = true <;> simp [h]

/-! ## Claim C1 -/

/-- C1 is false as stated: the claim quantifies over copies both with
and without lineage tagging, but sanitization happens only inside
`_add_lineage_tags`.  At this concrete input — a catalog-style
destination name, lineage tagging NOT requested, and a source tag key
containing `.` — the tag map written to the destination version
contains the dotted key unchanged. -/
theorem copy_uc_tag_keys_counterexample :
    is_unity_catalog_model "main.schema.model" = true ∧
    ("a.b", "v") ∈ (_copy_model_version sampleVersionDotted "main.schema.model"
      none (fun _ _ => sampleRun) (fun _ => sampleRun) (fun _ => "models/m")
      "http://src" "http://dst" "1" (fun _ => none) false).dstVersion.tags ∧
    '.' ∈ "a.b".data := by
  decide

/-- C1 amended: for every copy of a model version whose destination
registry is catalog-style, WITH lineage tagging requested, the tag map
written to the destination model version contains no key with a `.`
character, for every source tag map (including ones whose keys contain
`.`); without lineage tagging the source tag map is passed through
unsanitized. -/
theorem copy_uc_tag_keys_sanitized (src_version : ModelVersion)
    (dst_model_name : String) (dst_experiment_name : Option String)
    (copyRunFn : String → String → Run) (srcGetRun : String → Run)
    (getModelNameFn : String → String)
    (src_tracking_uri dst_tracking_uri newVersionNumber : String)
    (setAlias : String → Option MlflowExc)
    (huc : is_unity_catalog_model dst_model_name = true) :
    (∀ kv ∈ (_copy_model_version src_version dst_model_name dst_experiment_name
        copyRunFn srcGetRun getModelNameFn src_tracking_uri dst_tracking_uri
        newVersionNumber setAlias true).dstVersion.tags, '.' ∉ kv.1.data) ∧
    (_copy_model_version src_version dst_model_name dst_experiment_name
        copyRunFn srcGetRun getModelNameFn src_tracking_uri dst_tracking_uri
        newVersionNumber setAlias false).dstVersion.tags = src_version.tags := by
  constructor
  · intro kv hkv
    rw [copy_model_version_tags] at hkv
    simp only [if_true] at hkv
    exact add_lineage_tags_uc_no_dot _ _ _ _ _ _ huc kv hkv
  · rw [copy_model_version_tags]
    rfl

/-- Witness for C1 (amended): a concrete lineage-tagged copy to a
catalog-style destination has only dot-free tag keys, and in
particular rewrites the source key `a.b` to `a_b`. -/
theorem copy_uc_tag_keys_sanitized_witness :
    is_unity_catalog_model "main.schema.model" = true ∧
    (∀ kv ∈ (_copy_model_version sampleVersionDotted "main.schema.model" none
        (fun _ _ => sampleRun) (fun _ => sampleRun) (fun _ => "models/m")
        "http://src" "http://dst" "1" (fun _ => none) true).dstVersion.tags,
      '.' ∉ kv.1.data) ∧
    ("a_b", "v") ∈ (_copy_model_version sampleVersionDotted "main.schema.model"
      none (fun _ _ => sampleRun) (fun _ => sampleRun) (fun _ => "models/m")
      "http://src" "http://dst" "1" (fun _ => none) true).dstVersion.tags :=
  ⟨by decide,
   (copy_uc_tag_keys_sanitized sampleVersionDotted "main.schema.model" none
     (fun _ _ => sampleRun) (fun _ => sampleRun) (fun _ => "models/m")
     "http://src" "http://dst" "1" (fun _ => none) (by decide)).1,
   by decide⟩

/-! ## Claim C2 -/

theorem setAliasesLoop_spec (setAlias : String → Option MlflowExc)
    (l : List String) :
    setAliasesLoop setAlias l =
      (l.takeWhile (fun a => (setAlias a).isNone),
       (l.find? (fun a => (setAlias a).isSome)).bind setAlias) := by
  induction l with
  | nil => rfl
  | cons a rest ih =>
      unfold setAliasesLoop
      cases ha : setAlias a with
      | none =>
          rw [ih]
          rw [List.takeWhile_cons_of_pos (by rw [ha]; rfl)]
          rw [List.find?_cons_of_neg _ (by rw [ha]; simp)]
      | some e =>
          rw [List.takeWhile_cons_of_neg (by rw [ha]; simp)]
          rw [List.find?_cons_of_pos _ (by rw [ha]; rfl)]
          simp [ha]

/-- C2 is false as stated: the `try` wraps the whole alias loop, so
the remaining aliases after a failure are NOT set.  At this concrete
input the source version has aliases `a1, a2, a3`; setting `a2` fails
(while `a3` would succeed); only `a1` ends up set, the exception is
caught, and the copy still completes, returning the created version. -/
theorem copy_alias_abort_counterexample :
    (let failOn2 : String → Option MlflowExc := fun a =>
        if a == "a2" then
          some { error_code := "ENDPOINT_NOT_FOUND", message := "aliases unsupported" }
        else none
     let res := _copy_model_version sampleVersionDotted "dst_model" none
        (fun _ _ => sampleRun) (fun _ => sampleRun) (fun _ => "models/m")
        "http://src" "http://dst" "1" failOn2 false
     failOn2 "a3" = none ∧
     res.aliasesSet = ["a1"] ∧
     "a3" ∉ res.aliasesSet ∧
     res.caughtAliasError =
       some { error_code := "ENDPOINT_NOT_FOUND", message := "aliases unsupported" } ∧
     res.dstVersion.name = "dst_model" ∧
     res.dstVersion.version = "1") := by
  decide

/-- C2 amended: for every model-version copy, a failure while setting
an alias is caught (by a handler wrapping the whole alias loop) and
does not abort the copy: the aliases before the first failing one are
set, the aliases from the failing one on are not attempted, and the
copy completes, returning the created destination version (with the
destination name and the endpoint-assigned version number). -/
theorem copy_alias_failure_nonfatal (src_version : ModelVersion)
    (dst_model_name : String) (dst_experiment_name : Option String)
    (copyRunFn : String → String → Run) (srcGetRun : String → Run)
    (getModelNameFn : String → String)
    (src_tracking_uri dst_tracking_uri newVersionNumber : String)
    (setAlias : String → Option MlflowExc) (copy_lineage_tags : Bool) :
    let res := _copy_model_version src_version dst_model_name
      dst_experiment_name copyRunFn srcGetRun getModelNameFn src_tracking_uri
      dst_tracking_uri newVersionNumber setAlias copy_lineage_tags
    res.dstVersion.name = dst_model_name ∧
    res.dstVersion.version = newVersionNumber ∧
    res.dstVersion.description = src_version.description ∧
    res.aliasesSet =
      src_version.aliases.takeWhile (fun a => (setAlias a).isNone) ∧
    res.caughtAliasError =
      (src_version.aliases.find? (fun a => (setAlias a).isSome)).bind setAlias ∧
    res.dstVersion.aliases = res.aliasesSet := by
  dsimp only
  unfold _copy_model_version
  rw [setAliasesLoop_spec]
  by_cases h : is_unity_catalog_model dst_model_name = true <;> simp [h]

/-! ## Claim C5 -/

theorem extract_model_path_after_run_id (pre : List String) (run_id : String)
    (path : List String) (hpre : run_id ∉ pre) :
    _extract_model_path (pre ++ run_id :: "artifacts" :: path) run_id
      = some path := by
  induction pre with
  | nil =>
      simp [_extract_model_path]
  | cons s rest ih =>
      have hs : ¬ s = run_id := by
        intro he
        exact hpre (by rw [he]; exact List.mem_cons_self _ _)
      simp only [List.cons_append, _extract_model_path, if_neg hs]
      exact ih (fun hmem => hpre (List.mem_cons_of_mem _ hmem))

/-- C5: for every source artifact URI in either recognized layout
convention (platform-managed storage path `dbfs:/databricks/
mlflow-tracking/<exp>/<run_id>/artifacts/<path>` or locally-rooted
tracking directory `<root>/mlruns/<exp>/<run_id>/artifacts/<path>`)
embedding the run id followed by the `artifacts` marker, the resolver
returns exactly the path following the marker — identically for both
conventions (provided the run id does not also occur among the earlier
segments). -/
theorem extract_model_path_both_conventions (experiment_id run_id : String)
    (root path : List String)
    (h1 : run_id ∉ ["dbfs:", "databricks", "mlflow-tracking", experiment_id])
    (h2 : run_id ∉ root ++ ["mlruns", experiment_id]) :
    _extract_model_path (dbfsSourceSegments experiment_id run_id path) run_id
      = some path ∧
    _extract_model_path (localSourceSegments root experiment_id run_id path)
      run_id = some path := by
  constructor
  · exact extract_model_path_after_run_id
      ["dbfs:", "databricks", "mlflow-tracking", experiment_id] run_id path h1
  · have h := extract_model_path_after_run_id
      (root ++ ["mlruns", experiment_id]) run_id path h2
    rw [List.append_assoc] at h
    simp only [localSourceSegments, List.append_assoc]
    exact h

/-- Witness for C5 at the exact values of `tests/test_models.py`: both
the Databricks-managed URI and the local OSS URI resolve to
`models/my_model`. -/
theorem extract_model_path_both_conventions_witness :
    _extract_model_path
      (dbfsSourceSegments "4072937019901104" "48cf29167ddb4e098da780f0959fb4cf"
        ["models", "my_model"]) "48cf29167ddb4e098da780f0959fb4cf"
      = some ["models", "my_model"] ∧
    _extract_model_path
      (localSourceSegments ["", "opt", "mlflow_server", "local_mlrun"] "3"
        "48cf29167ddb4e098da780f0959fb4cf" ["models", "my_model"])
      "48cf29167ddb4e098da780f0959fb4cf"
      = some ["models", "my_model"] :=
  ⟨(extract_model_path_both_conventions "4072937019901104"
      "48cf29167ddb4e098da780f0959fb4cf" ["", "opt", "mlflow_server", "local_mlrun"]
      ["models", "my_model"] (by decide) (by decide)).1,
   (extract_model_path_both_conventions "3"
      "48cf29167ddb4e098da780f0959fb4cf" ["", "opt", "mlflow_server", "local_mlrun"]
      ["models", "my_model"] (by decide) (by decide)).2⟩

/-! ## Claim C9 -/

theorem heapGet_append_lt (h : Heap) (m : TagMap) (i : Nat)
    (hi : i < h.length) : heapGet (h ++ [m]) i = heapGet h i := by
  unfold heapGet
  exact List.getD_append _ _ _ _ hi

theorem heapDictSet_length (h : Heap) (r : Nat) (k v : String) :
    (heapDictSet h r k v).length = h.length := by
  simp [heapDictSet]

theorem add_tag_heap_length (srcTags : TagMap) (h : Heap) (r : Nat)
    (key pfx : String) : (add_tag_heap srcTags h r key pfx).length = h.length := by
  unfold add_tag_heap
  cases tagLookup srcTags key with
  | none => rfl
  | some v => simp [heapDictSet]

theorem heapGet_heapDictSet_ne (h : Heap) (r i : Nat) (k v : String)
    (hne : i ≠ r) : heapGet (heapDictSet h r k v) i = heapGet h i := by
  simp only [heapDictSet, heapGet, List.getD_eq_getD_get?, List.get?_eq_getElem?]
  rw [List.getElem?_set_ne (Ne.symm hne)]

theorem heapGet_add_tag_heap_ne (srcTags : TagMap) (h : Heap) (r i : Nat)
    (key pfx : String) (hne : i ≠ r) :
    heapGet (add_tag_heap srcTags h r key pfx) i = heapGet h i := by
  unfold add_tag_heap
  cases tagLookup srcTags key with
  | none => rfl
  | some v => exact heapGet_heapDictSet_ne _ _ _ _ _ hne

/-- C9: computing the lineage-tagged tag set never mutates the source
version's own tag dict.  In the reference-semantics embedding (Python
dicts in an explicit store, `deepcopy` allocating a fresh dict), after
`_add_lineage_tags` returns, the store still holds the source version's
tag dict unchanged at its original reference. -/
theorem add_lineage_tags_no_mutation (h : Heap) (src_version : ModelVersion)
    (srcTagsRef : Nat) (run : Run) (dst_model_name : String)
    (srcGetRun : String → Run) (src_tracking_uri dst_tracking_uri : String)
    (hlt : srcTagsRef < h.length) :
    heapGet (_add_lineage_tags_heap h src_version srcTagsRef run dst_model_name
      srcGetRun src_tracking_uri dst_tracking_uri).1 srcTagsRef
      = heapGet h srcTagsRef := by
  have hne : srcTagsRef ≠ h.length := Nat.ne_of_lt hlt
  unfold _add_lineage_tags_heap
  dsimp only
  by_cases huc : is_unity_catalog_model dst_model_name = true
  · rw [if_pos huc]
    dsimp only
    rw [heapGet_append_lt]
    · rw [heapGet_add_tag_heap_ne _ _ _ _ _ _ hne,
        heapGet_add_tag_heap_ne _ _ _ _ _ _ hne,
        heapGet_add_tag_heap_ne _ _ _ _ _ _ hne,
        heapGet_add_tag_heap_ne _ _ _ _ _ _ hne,
        heapGet_heapDictSet_ne _ _ _ _ _ hne,
        heapGet_heapDictSet_ne _ _ _ _ _ hne,
        heapGet_heapDictSet_ne _ _ _ _ _ hne,
        heapGet_heapDictSet_ne _ _ _ _ _ hne,
        heapGet_heapDictSet_ne _ _ _ _ _ hne,
        heapGet_append_lt _ _ _ hlt]
    · rw [add_tag_heap_length, add_tag_heap_length, add_tag_heap_length,
        add_tag_heap_length, heapDictSet_length, heapDictSet_length,
        heapDictSet_length, heapDictSet_length, heapDictSet_length,
        List.length_append]
      simp only [List.length_cons, List.length_nil]
      omega
  · rw [if_neg huc]
    dsimp only
    rw [heapGet_add_tag_heap_ne _ _ _ _ _ _ hne,
      heapGet_add_tag_heap_ne _ _ _ _ _ _ hne,
      heapGet_add_tag_heap_ne _ _ _ _ _ _ hne,
      heapGet_add_tag_heap_ne _ _ _ _ _ _ hne,
      heapGet_heapDictSet_ne _ _ _ _ _ hne,
      heapGet_heapDictSet_ne _ _ _ _ _ hne,
      heapGet_heapDictSet_ne _ _ _ _ _ hne,
      heapGet_heapDictSet_ne _ _ _ _ _ hne,
      heapGet_heapDictSet_ne _ _ _ _ _ hne,
      heapGet_append_lt _ _ _ hlt]

/-- Witness for C9: a one-dict store holding the source tags at
reference 0 is unchanged at reference 0 after lineage-tag computation
(with a catalog-style destination name), and the result is the dict
`[("a.b", "v")]` it started with. -/
theorem add_lineage_tags_no_mutation_witness :
    heapGet (_add_lineage_tags_heap [[("a.b", "v")]] sampleVersionDotted 0
      sampleRun "main.schema.model" (fun _ => sampleRun) "http://src"
      "http://dst").1 0 = heapGet [[("a.b", "v")]] 0 ∧
    heapGet (_add_lineage_tags_heap [[("a.b", "v")]] sampleVersionDotted 0
      sampleRun "main.schema.model" (fun _ => sampleRun) "http://src"
      "http://dst").1 0 = [("a.b", "v")] :=
  ⟨add_lineage_tags_no_mutation [[("a.b", "v")]] sampleVersionDotted 0
     sampleRun "main.schema.model" (fun _ => sampleRun) "http://src"
     "http://dst" (by decide),
   by decide⟩

end MlflowExportImport
